import Mathlib

/-!
# Formal model of the vite dependency scanner

This file is a shallow embedding, in Lean 4, of the dependency-discovery
engine found in `src/packages/vite/src/node/optimizer/scan.ts`.

Modelling conventions:

* JS plain objects used as string-keyed maps (`deps`, `missing`, the `seen`
  cache, the `scripts` registry) are modelled as association lists
  (`List (String × α)`) with overwrite-on-assign semantics (`assocSet`).
* The esbuild resolve-hook chain is modelled as one dispatch function
  (`onResolveStep`) that tries the handlers in their registration order;
  a handler returning `undefined` (here `none`) falls through to the next
  handler, keeping any state mutations it performed, exactly as esbuild does.
* The plugin-container resolver (`container.resolveId`) is an external
  collaborator and is modelled as an oracle function `ScanEnv.resolveId`.
  JS truthiness on the resolved string is modelled by letting the oracle
  return `none` for falsy (absent or empty) resolutions.
* `isOptimizable` comes from a module outside `src/`; it is kept as an
  abstract predicate `ScanEnv.isOptimizable` supplied by the environment.
* Regex filters that live in `scan.ts` (`htmlTypesRE`, the bare-import
  filter, the extension filters) are embedded as executable string
  predicates with the same acceptance behaviour on well-formed inputs.
* `fs`, `fast-glob` and the esbuild crawl itself are oracles of the
  top-level `scanImports` model.
-/

set_option maxHeartbeats 1000000
set_option maxRecDepth 4000

namespace ViteScan

/-! ## Association lists: JS object maps -/

/-- Lookup in a JS-object-like map: first (unique) binding of the key. -/
def assocFind {α : Type} (l : List (String × α)) (k : String) : Option α :=
  match l with
  | [] => none
  | (k', v) :: t => if k' = k then some v else assocFind t k

/-- JS property assignment `obj[k] = v`: overwrite if present, append if not. -/
def assocSet {α : Type} (l : List (String × α)) (k : String) (v : α) :
    List (String × α) :=
  match l with
  | [] => [(k, v)]
  | (k', v') :: t => if k' = k then (k, v) :: t else (k', v') :: assocSet t k v

/-! ## String helpers (executable, kernel-reducible) -/

/-- Does the second list start with the first one? -/
def leadMatch : List Char → List Char → Bool
  | [], _ => true
  | _ :: _, [] => false
  | a :: as, b :: bs => a = b && leadMatch as bs

/-- Does `l` contain `sub` as a contiguous sublist? -/
def hasSub (sub : List Char) : List Char → Bool
  | [] => leadMatch sub []
  | c :: t => leadMatch sub (c :: t) || hasSub sub t

/-- JS `s.includes(sub)` (substring containment). -/
def containsSub (s sub : String) : Bool :=
  hasSub sub.toList s.toList

/-- JS `s.startsWith(sub)`. -/
def strStarts (s sub : String) : Bool :=
  leadMatch sub.toList s.toList

/-- JS `s.endsWith(sub)`. -/
def strEnds (s sub : String) : Bool :=
  leadMatch sub.toList.reverse s.toList.reverse

/-- Is the string blank, i.e. is JS `s.trim()` falsy? -/
def strBlank (s : String) : Bool :=
  s.toList.all (fun c => c = ' ' || c = '\n' || c = '\t' || c = '\r')

/-- Does the string contain a NUL byte (`\0`), as tested by
`resolvedId.includes('\0')` in `shouldExternalizeDep`? -/
def containsNullByte (s : String) : Bool :=
  s.toList.any (fun c => c = Char.ofNat 0)

/-- Modelled from the spec: vite's `normalizePath` utility (the `utils`
module is not under `src/`); the spec only requires the importer path to be
normalized, which we model as converting backslash separators to slashes. -/
def normalizePath (p : String) : String :=
  String.mk (p.toList.map (fun c => if c = '\\' then '/' else c))

/-- Node's POSIX `path.dirname`: everything before the last separator,
`"."` when there is none, `"/"` for a file directly under the root. -/
def dirname (p : String) : String :=
  match p.toList.reverse.dropWhile (fun c => c ≠ '/') with
  | [] => "."
  | _ :: t => if t = [] then "/" else String.mk t.reverse

/-- POSIX `path.isAbsolute` (the scanner runs on filesystem paths). -/
def isAbsolute (p : String) : Bool :=
  strStarts p "/"

/-- `path.resolve` applied to a single already-absolute path; the model does
not re-normalize dot segments (no claim depends on that). -/
def pathResolve (p : String) : String := p

/-- `path.resolve(root, p)` as used for `rollupOptions.input` entries. -/
def pathResolveIn (root p : String) : String :=
  if isAbsolute p then p else root ++ "/" ++ p

/-- Modelled from the spec: vite's `cleanUrl` utility (strip query/hash). -/
def cleanUrl (url : String) : String :=
  String.mk (url.toList.takeWhile (fun c => c ≠ '?' && c ≠ '#'))

/-! ## Regex filters of the scan plugin -/

/-- `htmlTypesRE = /\.(html|vue|svelte|astro|imba)$/` (scan.ts line 32). -/
def htmlTypesRE (id : String) : Bool :=
  strEnds id ".html" || strEnds id ".vue" || strEnds id ".svelte" ||
    strEnds id ".astro" || strEnds id ".imba"

/-- Modelled from the spec: `JS_TYPES_RE` from the constants module (not
under `src/`), accepting the source-code extensions of scannable files. -/
def jsTypesRE (id : String) : Bool :=
  strEnds id ".js" || strEnds id ".jsx" || strEnds id ".ts" ||
    strEnds id ".tsx" || strEnds id ".mjs"

/-- `isScannable` (scan.ts lines 609-611). -/
def isScannable (id : String) : Bool :=
  jsTypesRE id || htmlTypesRE id

/-- Modelled from the spec: `externalRE` from the utils module — remote URL
specifiers (`http://`, `https://`, or protocol-relative `//`). -/
def externalRE (id : String) : Bool :=
  strStarts id "http://" || strStarts id "https://" || strStarts id "//"

/-- Modelled from the spec: `dataUrlRE` from the utils module. -/
def dataUrlRE (id : String) : Bool :=
  strStarts id "data:"

/-- Modelled from the spec: the reserved internal marker prepended to
virtual-script paths (`virtualModulePrefix` in the utils module). -/
def virtualModuleMark : String := "virtual-module:"

/-- Modelled from the spec: `virtualModuleRE` — paths carrying the
reserved virtual-script marker. -/
def virtualModuleRE (id : String) : Bool :=
  strStarts id virtualModuleMark

/-- `path.replace(virtualModulePrefix, '')` on a path that carries it. -/
def stripVirtualMark (id : String) : String :=
  String.mk (id.toList.drop virtualModuleMark.toList.length)

/-- JS `\w` character class (ASCII word characters). -/
def wordChar (c : Char) : Bool :=
  c.isAlphanum || c = '_'

/-- The bare-import filter `/^[\w@][^:]/` (scan.ts line 436): first
character a word character or `@`, second character present and not `:`
(the latter avoids matching Windows volume roots). -/
def bareFilter (id : String) : Bool :=
  match id.toList with
  | c1 :: c2 :: _ => (wordChar c1 || c1 = '@') && c2 ≠ ':'
  | _ => false

/-- The style/data filter `/\.(css|less|sass|scss|styl|stylus|pcss|postcss|sss|json|wasm)$/`
(scan.ts lines 487-493). -/
def cssJsonWasmRE (id : String) : Bool :=
  [".css", ".less", ".sass", ".scss", ".styl", ".stylus", ".pcss",
      ".postcss", ".sss", ".json", ".wasm"].any (fun e => strEnds id e)

/-- Modelled from the spec: `KNOWN_ASSET_TYPES` from the constants module —
static-asset extensions. -/
def knownAssetTypes : List String :=
  ["png", "jpe?g", "jpg", "jpeg", "gif", "svg", "ico", "webp", "avif",
    "mp4", "webm", "ogg", "mp3", "wav", "flac", "aac",
    "woff2", "woff", "eot", "ttf", "otf", "pdf", "txt"]

/-- The known-asset filter built from `KNOWN_ASSET_TYPES` (scan.ts 496-501). -/
def assetsRE (id : String) : Bool :=
  knownAssetTypes.any (fun e => strEnds id ("." ++ e))

/-- Modelled from the spec: `SPECIAL_QUERY_RE` from the constants module —
reserved query markers such as raw-content or worker-module requests. -/
def specialQueryRE (id : String) : Bool :=
  ["?worker", "&worker", "?sharedworker", "&sharedworker", "?raw", "&raw",
      "?url", "&url"].any (fun q => containsSub id q)

/-! ## Scan environment and state -/

/-- The collaborators and configuration the esbuild scan plugin closes
over (`esbuildScanPlugin`, scan.ts lines 175-216). -/
structure ScanEnv where
  /-- Oracle for `container.resolveId(id, importer, {scan: true, ...})`;
  `none` models a falsy (failed or empty) resolution. -/
  resolveId : String → Option String → Option String
  /-- Abstract predicate for `isOptimizable(resolved, config.optimizeDeps)`
  (defined outside `src/`). -/
  isOptimizable : String → Bool
  /-- The discovered entry files handed to the plugin. -/
  entries : List String
  /-- `config.optimizeDeps.include` (`undefined` modelled as `none`). -/
  includeList : Option (List String)
  /-- `config.optimizeDeps.exclude` (defaulted to `[]` by the plugin). -/
  excludeCfg : List String

/-- The mutable maps owned by one scan: `depImports`, `missing` and the
resolve cache `seen`. -/
structure ScanState where
  depImports : List (String × String)
  missing : List (String × String)
  seen : List (String × Option String)
deriving DecidableEq

/-- The effective exclude list (scan.ts lines 207-211): the configured
`optimizeDeps.exclude` augmented with `@vite/client` and `@vite/env`. -/
def excludeList (env : ScanEnv) : List String :=
  env.excludeCfg ++ ["@vite/client", "@vite/env"]

/-- Modelled from the spec: `moduleListContains` from the utils module —
membership of a specifier in a list, also matching sub-path imports of a
listed module. -/
def moduleListContains (l : List String) (id : String) : Bool :=
  l.any (fun m => m == id || strStarts id (m ++ "/"))

/-- `include?.includes(id)` (scan.ts line 456). -/
def includeContains (env : ScanEnv) (id : String) : Bool :=
  match env.includeList with
  | some l => l.contains id
  | none => false

/-- The resolve-cache key `id + (importer && path.dirname(importer))`
(scan.ts line 189).  When `importer` is `undefined`, JS string
concatenation with `undefined` appends the text `"undefined"`; when it is
the empty string the short-circuit yields the empty string. -/
def resolveKey (id : String) (importer : Option String) : String :=
  id ++ match importer with
        | none => "undefined"
        | some i => if i = "" then "" else dirname i

/-- The importer argument passed to `container.resolveId`:
`importer && normalizePath(importer)` (scan.ts line 195). -/
def normImporter (importer : Option String) : Option String :=
  match importer with
  | none => none
  | some i => if i = "" then none else some (normalizePath i)

/-- The `resolve` facade of the plugin (scan.ts lines 184-204): consult the
`seen` cache by key, otherwise invoke the resolver and store the result
(the result, not the in-flight promise, is what gets cached). -/
def resolveCached (env : ScanEnv) (st : ScanState) (id : String)
    (importer : Option String) : Option String × ScanState :=
  match assocFind st.seen (resolveKey id importer) with
  | some v => (v, st)
  | none =>
    (env.resolveId id (normImporter importer),
      { st with
        seen := assocSet st.seen (resolveKey id importer)
          (env.resolveId id (normImporter importer)) })

/-- The value returned by an esbuild `onResolve` callback (restricted to
the fields this plugin uses). -/
structure OnResolveResult where
  path : String
  external : Bool
  ns : Option String := none
deriving DecidableEq

/-- `externalUnlessEntry` (scan.ts lines 213-216). -/
def externalUnlessEntry (env : ScanEnv) (p : String) : OnResolveResult :=
  { path := p, external := !(env.entries.contains p), ns := none }

/-- `shouldExternalizeDep` (scan.ts lines 597-607). -/
def shouldExternalizeDep (resolvedId rawId : String) : Bool :=
  if !(isAbsolute resolvedId) then true
  else if resolvedId == rawId || containsNullByte resolvedId then true
  else false

/-- The bare-import `onResolve` handler (scan.ts lines 433-478): excluded
or already-recorded specifiers are externalized; otherwise the specifier is
resolved, and depending on the resolution it is recorded as a dependency
and externalized, crawled into, externalized, or recorded as missing (the
handler returns `undefined`, falling through, in the missing case).  The
handler never throws: a failed resolution degrades to a `missing` entry. -/
def bareImportOnResolve (env : ScanEnv) (st : ScanState) (id importer : String) :
    Option OnResolveResult × ScanState :=
  if moduleListContains (excludeList env) id then
    (some (externalUnlessEntry env id), st)
  else if (assocFind st.depImports id).isSome then
    (some (externalUnlessEntry env id), st)
  else
    match resolveCached env st id (some importer) with
    | (some resolved, st1) =>
      if shouldExternalizeDep resolved id then
        (some (externalUnlessEntry env id), st1)
      else if containsSub resolved "node_modules" || includeContains env id then
        (some (externalUnlessEntry env id),
          if env.isOptimizable resolved then
            { st1 with depImports := assocSet st1.depImports id resolved }
          else st1)
      else if isScannable resolved then
        (some { path := pathResolve resolved, external := false,
                ns := if htmlTypesRE resolved then some "html" else none }, st1)
      else
        (some (externalUnlessEntry env id), st1)
    | (none, st1) =>
      (none, { st1 with missing := assocSet st1.missing id (normalizePath importer) })

/-- The html-types `onResolve` handler (scan.ts lines 276-292): resolve the
id; fall through when unresolved, or when the target sits in `node_modules`
and is optimizable (so the bare-import handler records it); otherwise claim
it under the `html` namespace. -/
def htmlTypesOnResolve (env : ScanEnv) (st : ScanState) (id importer : String) :
    Option OnResolveResult × ScanState :=
  match resolveCached env st id (some importer) with
  | (none, st1) => (none, st1)
  | (some resolved, st1) =>
    if containsSub resolved "node_modules" && env.isOptimizable resolved then
      (none, st1)
    else
      (some { path := resolved, external := false, ns := some "html" }, st1)

/-- The catch-all `onResolve` handler (scan.ts lines 511-538). -/
def catchAllOnResolve (env : ScanEnv) (st : ScanState) (id importer : String) :
    Option OnResolveResult × ScanState :=
  match resolveCached env st id (some importer) with
  | (some resolved, st1) =>
    if shouldExternalizeDep resolved id || !(isScannable resolved) then
      (some (externalUnlessEntry env id), st1)
    else
      (some { path := pathResolve (cleanUrl resolved), external := false,
              ns := if htmlTypesRE resolved then some "html" else none }, st1)
  | (none, st1) => (some (externalUnlessEntry env id), st1)

/-- Handlers registered after the bare-import handler (scan.ts 487-538):
the style/data/asset extension filters, the special-query filter and the
catch-all. -/
def onResolveTail (env : ScanEnv) (st : ScanState) (id importer : String) :
    Option OnResolveResult × ScanState :=
  if cssJsonWasmRE id then (some (externalUnlessEntry env id), st)
  else if assetsRE id then (some (externalUnlessEntry env id), st)
  else if specialQueryRE id then
    (some { path := id, external := true, ns := none }, st)
  else catchAllOnResolve env st id importer

/-- Dispatch of one import edge through the plugin's `onResolve` chain in
registration order (scan.ts `setup`, lines 245-538): external URLs, data
URLs, virtual-script references, html-type files, bare imports, then the
tail handlers.  A handler that falls through (`none`) keeps its state
mutations and hands the edge to the next handler, as esbuild does. -/
def onResolveStep (env : ScanEnv) (st : ScanState) (id importer : String) :
    Option OnResolveResult × ScanState :=
  if externalRE id then (some { path := id, external := true, ns := none }, st)
  else if dataUrlRE id then (some { path := id, external := true, ns := none }, st)
  else if virtualModuleRE id then
    (some { path := stripVirtualMark id, external := false, ns := some "script" }, st)
  else
    match (if htmlTypesRE id then htmlTypesOnResolve env st id importer
           else (none, st)) with
    | (some r, st1) => (some r, st1)
    | (none, st1) =>
      match (if bareFilter id then bareImportOnResolve env st1 id importer
             else (none, st1)) with
      | (some r, st2) => (some r, st2)
      | (none, st2) => onResolveTail env st2 id importer

/-- A whole crawl, seen through the shared maps: the sequence of resolve
callbacks the engine issues, folded over the scan state. -/
def runResolves (env : ScanEnv) (st : ScanState) (reqs : List (String × String)) :
    ScanState :=
  reqs.foldl (fun s r => (onResolveStep env s r.1 r.2).2) st

/-! ## The html-namespace load hook (script extraction)

The load hook (scan.ts lines 317-429) runs two regexes over the raw file:
`scriptModuleRE` for true `.html` files — it matches only `<script>` tags
carrying a quoted `type="module"` attribute — and `scriptRE` for the other
markup dialects, matching every `<script>` tag.  We embed the hook one
level above the character stream: a file is a list of `ScriptBlock`s, the
structured content of the tags the respective regex engine walks over, and
the two regexes become the corresponding selections on that list.  The
attribute regexes (`typeRE`, `srcRE`, `langRE`, `contextRE`) require a
non-empty attribute value, so an empty attribute behaves like an absent
one. -/

/-- A `<script>` tag of a markup file: its attributes and inline content. -/
structure ScriptBlock where
  typeAttr : Option String
  langAttr : Option String
  srcAttr : Option String
  contextAttr : Option String
  content : String
deriving DecidableEq

/-- Attribute value as captured by `typeRE` (empty value never matches). -/
def attrVal (a : Option String) : Option String :=
  match a with
  | some v => if v = "" then none else some v
  | none => none

/-- The `type`-based skip of the extraction loop (scan.ts lines 343-352):
a block is kept when its type is absent, mentions javascript/ecmascript,
or is exactly `module`. -/
def typeOk (b : ScriptBlock) : Bool :=
  match attrVal b.typeAttr with
  | none => true
  | some t => containsSub t "javascript" || containsSub t "ecmascript" || t == "module"

/-- The loader chosen for a block (scan.ts lines 353-358). -/
def blockLoader (filePath : String) (b : ScriptBlock) : String :=
  match attrVal b.langAttr with
  | some l =>
    if l = "ts" || l = "tsx" || l = "jsx" then l
    else if strEnds filePath ".astro" then "ts" else "js"
  | none => if strEnds filePath ".astro" then "ts" else "js"

/-- A virtual-script registry entry (`scripts[key]`, an esbuild
`OnLoadResult` restricted to the fields the plugin sets). -/
structure OnLoadScript where
  loader : String
  contents : String
  htmlTypeLoader : String
deriving DecidableEq

/-- `JSON.stringify` on a path string; the paths synthesized here contain
no characters needing escapes, so quoting suffices. -/
def jsonQuote (s : String) : String :=
  "\"" ++ s ++ "\""

/-- Accumulator of the extraction loop: the synthesized module source, the
per-file script counter, and the virtual-script registry. -/
structure HtmlAcc where
  js : String
  scriptId : Nat
  scripts : List (String × OnLoadScript)
deriving DecidableEq

/-- One iteration of the extraction loop (scan.ts lines 332-414) over a
matched block.  `globT` abstracts `doTransformGlobImport` and `extractI`
abstracts `extractImportPaths` (its regex recovery pass); neither affects
which blocks are extracted. -/
def processBlock (globT extractI : String → String) (filePath : String)
    (acc : HtmlAcc) (b : ScriptBlock) : HtmlAcc :=
  if !(typeOk b) then acc
  else
    let loader := blockLoader filePath b
    match attrVal b.srcAttr with
    | some src => { acc with js := acc.js ++ "import " ++ jsonQuote src ++ "\n" }
    | none =>
      if strBlank b.content then acc
      else
        let contents :=
          b.content ++ (if strStarts loader "ts" then extractI b.content else "")
        let key := filePath ++ "?id=" ++ toString acc.scriptId
        let entry : OnLoadScript :=
          if containsSub contents "import.meta.glob" then
            { loader := "js", contents := globT contents, htmlTypeLoader := loader }
          else
            { loader := loader, contents := contents, htmlTypeLoader := loader }
        let vmp := jsonQuote (virtualModuleMark ++ key)
        { js :=
            if strEnds filePath ".svelte" && !(attrVal b.contextAttr == some "module") then
              acc.js ++ "import " ++ vmp ++ "\n"
            else
              acc.js ++ "export * from " ++ vmp ++ "\n",
          scriptId := acc.scriptId + 1,
          scripts := assocSet acc.scripts key entry }

/-- The blocks the extraction loop actually processes: for `.html` files
those matched by `scriptModuleRE` (quoted `type="module"` attribute), for
the other dialects every block matched by `scriptRE`; in both cases the
loop then skips blocks whose `type` is a non-JS type. -/
def processedBlocks (filePath : String) (blocks : List ScriptBlock) :
    List ScriptBlock :=
  (if strEnds filePath ".html" then
      blocks.filter (fun b => b.typeAttr == some "module")
    else blocks).filter typeOk

/-- The html-namespace load hook (scan.ts lines 317-429): run the dialect's
regex over the blocks, synthesize the module source and the virtual-script
registry, and append the synthetic `export default` unless the file is a
`.vue` component already containing one. -/
def htmlOnLoad (globT extractI : String → String) (filePath : String)
    (blocks : List ScriptBlock) : String × List (String × OnLoadScript) :=
  let matched :=
    if strEnds filePath ".html" then
      blocks.filter (fun b => b.typeAttr == some "module")
    else blocks
  let acc := matched.foldl (processBlock globT extractI filePath)
    { js := "", scriptId := 0, scripts := [] }
  let js :=
    if !(strEnds filePath ".vue") || !(containsSub acc.js "export default") then
      acc.js ++ "\nexport default \x7b\x7d"
    else acc.js
  (js, acc.scripts)

/-! ## Entry discovery and the scan orchestrator -/

/-- The comparator of `orderedDependencies` (scan.ts line 145):
`a[0].localeCompare(b[0])`, modelled as the lexicographic order on the
specifier keys. -/
def keyLE (a b : String × String) : Prop := a.1 ≤ b.1

/-- The strict key order on dependency entries. -/
def keyLT (a b : String × String) : Prop := a.1 < b.1

instance : DecidableRel keyLE := fun a b => inferInstanceAs (Decidable (a.1 ≤ b.1))

instance : IsTotal (String × String) keyLE := ⟨fun a b => le_total a.1 b.1⟩

instance : IsTrans (String × String) keyLE := ⟨fun _ _ _ h1 h2 => le_trans h1 h2⟩

instance : IsAntisymm (String × String) keyLT :=
  ⟨fun _ _ h1 h2 => absurd (lt_trans h1 h2) (lt_irrefl _)⟩

/-- The sorted dependency map returned by the scanner
(`orderedDependencies`, scan.ts lines 142-147): `Object.entries`, a sort by
specifier (`localeCompare` modelled as the lexicographic string order), and
reassembly.  The map is modelled directly as its entry list. -/
def orderedDependencies (deps : List (String × String)) : List (String × String) :=
  deps.insertionSort keyLE

/-- The `build.rollupOptions.input` configuration value, a JS union of
string, array, object — or anything else (`other`, with its JS
truthiness). -/
inductive BuildInput
  | str (s : String)
  | arr (l : List String)
  | obj (m : List (String × String))
  | other (truthy : Bool)
deriving DecidableEq

/-- JS truthiness of a `rollupOptions.input` value. -/
def buildInputTruthy : BuildInput → Bool
  | .str s => s ≠ ""
  | .arr _ => true
  | .obj _ => true
  | .other t => t

/-- The slice of the resolved config that entry discovery reads. -/
structure ScanConfig where
  root : String
  /-- `config.optimizeDeps.entries`; `none` models an absent (falsy) value. -/
  entriesPatterns : Option (List String)
  /-- `config.build.rollupOptions?.input`; `none` models an absent value. -/
  buildInput : Option BuildInput
  /-- `config.optimizeDeps.include`; `none` models an absent value. -/
  includeList : Option (List String)
deriving DecidableEq

/-- Filesystem oracles of entry discovery: `globEntries` (fast-glob with
the scanner's ignore set) and `fs.existsSync`. -/
structure FsEnv where
  glob : List String → List String
  fileExists : String → Bool

/-- Entry collection (scan.ts lines 55-83): explicit entry patterns first,
then the declared build input (string / array / object, anything else
throws), finally the `**/*.html` fallback glob. -/
def discoverEntries (fs : FsEnv) (cfg : ScanConfig) : Except String (List String) :=
  match cfg.entriesPatterns with
  | some pats => .ok (fs.glob pats)
  | none =>
    match cfg.buildInput with
    | some bi =>
      if buildInputTruthy bi then
        match bi with
        | .str s => .ok [pathResolveIn cfg.root s]
        | .arr l => .ok (l.map (pathResolveIn cfg.root))
        | .obj m => .ok (m.map (fun kv => pathResolveIn cfg.root kv.2))
        | .other _ => .error "invalid rollupOptions.input value."
      else .ok (fs.glob ["**/*.html"])
    | none => .ok (fs.glob ["**/*.html"])

/-- Entry filtering (scan.ts lines 87-89): keep scannable, existing files. -/
def filteredEntries (fs : FsEnv) (cfg : ScanConfig) : Except String (List String) :=
  (discoverEntries fs cfg).map
    (fun es => es.filter (fun e => isScannable e && fs.fileExists e))

/-- The observable outcome of `scanImports`: the two maps plus flags
recording the warning and crawl side effects (`logger.warn` on line 93,
the esbuild builds on lines 116-131). -/
structure ScanOut where
  deps : List (String × String)
  missing : List (String × String)
  warned : Bool
  crawled : Bool
deriving DecidableEq

/-- The scan orchestrator `scanImports` (scan.ts lines 47-140).  The
parallel esbuild crawls and the plugin wiring are abstracted by the
`crawl` oracle, which returns the `deps`/`missing` maps the shared state
accumulated; on an empty entry set the function returns the empty result,
warning exactly when neither explicit entries nor a forced-include list
were configured; the returned deps are passed through
`orderedDependencies`. -/
def scanImports (fs : FsEnv)
    (crawl : List String → List (String × String) × List (String × String))
    (cfg : ScanConfig) : Except String ScanOut :=
  match filteredEntries fs cfg with
  | .error e => .error e
  | .ok [] =>
    .ok { deps := [], missing := [],
          warned := cfg.entriesPatterns.isNone && cfg.includeList.isNone,
          crawled := false }
  | .ok (e :: es) =>
    .ok { deps := orderedDependencies (crawl (e :: es)).1,
          missing := (crawl (e :: es)).2,
          warned := false,
          crawled := true }

/-! ## Interleaving model of the resolve facade

For the concurrency claim the `resolve` facade (scan.ts lines 184-204) is
split at its single suspension point, the `await container.resolveId`: a
call first performs its synchronous cache check (`seen.has`/`seen.get`)
and, on a miss, later completes by invoking the resolver and storing the
result.  Concurrent calls are two such state machines interleaved by an
explicit schedule; `resolverCalls` counts underlying resolver
invocations. -/

/-- Cache plus resolver-invocation counter shared by concurrent calls. -/
structure CResolveState where
  seen : List (String × Option String)
  resolverCalls : Nat
deriving DecidableEq

/-- Progress of one `resolve` call: not yet checked the cache, awaiting
the resolver after a miss, or returned with a value. -/
inductive CallPhase
  | ready
  | awaitingResolver
  | returned (v : Option String)
deriving DecidableEq

/-- The synchronous prefix of a call: the `seen` cache check. -/
def callCheck (st : CResolveState) (id : String) (imp : Option String) :
    CallPhase × CResolveState :=
  match assocFind st.seen (resolveKey id imp) with
  | some v => (.returned v, st)
  | none => (.awaitingResolver, st)

/-- The completion of a call that missed the cache: the resolver returns
and the result is stored (scan.ts lines 193-203). -/
def callFinish (oracle : String → Option String → Option String)
    (st : CResolveState) (id : String) (imp : Option String) :
    CallPhase × CResolveState :=
  (.returned (oracle id (normImporter imp)),
    { seen := assocSet st.seen (resolveKey id imp) (oracle id (normImporter imp)),
      resolverCalls := st.resolverCalls + 1 })

/-- One scheduler step of a call. -/
def callStep (oracle : String → Option String → Option String)
    (st : CResolveState) (id : String) (imp : Option String) (ph : CallPhase) :
    CallPhase × CResolveState :=
  match ph with
  | .ready => callCheck st id imp
  | .awaitingResolver => callFinish oracle st id imp
  | .returned v => (.returned v, st)

/-- Interleave two `resolve` calls under a schedule (`true` steps the
first call, `false` the second). -/
def runTwoCalls (oracle : String → Option String → Option String)
    (a b : String × Option String) (sched : List Bool) (st : CResolveState) :
    CallPhase × CallPhase × CResolveState :=
  sched.foldl
    (fun acc turn =>
      if turn then
        let s := callStep oracle acc.2.2 a.1 a.2 acc.1
        (s.1, acc.2.1, s.2)
      else
        let s := callStep oracle acc.2.2 b.1 b.2 acc.2.1
        (acc.1, s.1, s.2))
    (.ready, .ready, st)

/-! ## Concrete fixtures used by witnesses and counterexamples -/

/-- A resolver oracle resolving everything to one package file. -/
def c8Oracle : String → Option String → Option String :=
  fun _ _ => some "/proj/node_modules/react/index.js"

/-- One plain `<script>` block (no `type` attribute) with inline content. -/
def c5Blocks : List ScriptBlock :=
  [{ typeAttr := none, langAttr := none, srcAttr := none,
     contextAttr := none, content := "window.foo()" }]

/-- The two blocks of the C6 scenario: a `type="module"` script with a
`src` attribute and an inline `type="module"` script. -/
def c6Blocks : List ScriptBlock :=
  [{ typeAttr := some "module", langAttr := none, srcAttr := some "/src/main.ts",
     contextAttr := none, content := "" },
   { typeAttr := some "module", langAttr := none, srcAttr := none,
     contextAttr := none, content := "console.log(1)" }]

/-- A scan environment for concrete witnesses: `react` resolves into
`node_modules`, `missing-pkg` does not resolve, everything else resolves
to a linked source file. -/
def witEnv : ScanEnv :=
  { resolveId := fun id _ =>
      if id = "react" then some "/proj/node_modules/react/index.js"
      else if id = "missing-pkg" then none
      else some "/proj/lib/dep.js",
    isOptimizable := fun p => strEnds p ".js",
    entries := ["/proj/index.html"],
    includeList := none,
    excludeCfg := [] }

/-- The empty scan state. -/
def emptyState : ScanState :=
  { depImports := [], missing := [], seen := [] }

/-- A filesystem with no files and empty globs. -/
def emptyFs : FsEnv :=
  { glob := fun _ => [], fileExists := fun _ => false }

/-- A crawl oracle discovering nothing. -/
def noCrawl : List String → List (String × String) × List (String × String) :=
  fun _ => ([], [])

/-- A configuration with nothing configured. -/
def c2Cfg : ScanConfig :=
  { root := "/proj", entriesPatterns := none, buildInput := none, includeList := none }

/-- A configuration whose declared build input has an unsupported shape. -/
def c9Cfg : ScanConfig :=
  { root := "/proj", entriesPatterns := none,
    buildInput := some (.other true), includeList := none }

/-! ## Helper lemmas -/

theorem assocFind_assocSet_self {α : Type} (l : List (String × α)) (k : String) (v : α) :
    assocFind (assocSet l k v) k = some v := by
  induction l with
  | nil => simp [assocSet, assocFind]
  | cons hd t ih =>
    obtain ⟨a, b⟩ := hd
    by_cases ha : a = k
    · simp [assocSet, assocFind, ha]
    · simp [assocSet, assocFind, ha, ih]

theorem assocFind_assocSet_ne {α : Type} (l : List (String × α)) (k k' : String) (v : α)
    (h : k' ≠ k) : assocFind (assocSet l k v) k' = assocFind l k' := by
  induction l with
  | nil => simp [assocSet, assocFind, Ne.symm h]
  | cons hd t ih =>
    obtain ⟨a, b⟩ := hd
    by_cases ha : a = k
    · subst ha; simp [assocSet, assocFind, Ne.symm h]
    · simp [assocSet, assocFind, ha, ih]

theorem resolveCached_depImports (env : ScanEnv) (st : ScanState) (id : String)
    (imp : Option String) :
    ((resolveCached env st id imp).2).depImports = st.depImports := by
  cases h : assocFind st.seen (resolveKey id imp) <;> simp [resolveCached, h]

theorem resolveCached_missing (env : ScanEnv) (st : ScanState) (id : String)
    (imp : Option String) :
    ((resolveCached env st id imp).2).missing = st.missing := by
  cases h : assocFind st.seen (resolveKey id imp) <;> simp [resolveCached, h]

theorem htmlTypesOnResolve_depImports (env : ScanEnv) (st : ScanState) (id imp : String) :
    ((htmlTypesOnResolve env st id imp).2).depImports = st.depImports := by
  have h := resolveCached_depImports env st id (some imp)
  unfold htmlTypesOnResolve
  split
  · rename_i st1 heq
    rw [heq] at h
    exact h
  · rename_i resolved st1 heq
    rw [heq] at h
    split <;> exact h

theorem htmlTypesOnResolve_missing (env : ScanEnv) (st : ScanState) (id imp : String) :
    ((htmlTypesOnResolve env st id imp).2).missing = st.missing := by
  have h := resolveCached_missing env st id (some imp)
  unfold htmlTypesOnResolve
  split
  · rename_i st1 heq
    rw [heq] at h
    exact h
  · rename_i resolved st1 heq
    rw [heq] at h
    split <;> exact h

theorem catchAllOnResolve_depImports (env : ScanEnv) (st : ScanState) (id imp : String) :
    ((catchAllOnResolve env st id imp).2).depImports = st.depImports := by
  have h := resolveCached_depImports env st id (some imp)
  unfold catchAllOnResolve
  split
  · rename_i resolved st1 heq
    rw [heq] at h
    split <;> exact h
  · rename_i st1 heq
    rw [heq] at h
    exact h

theorem catchAllOnResolve_missing (env : ScanEnv) (st : ScanState) (id imp : String) :
    ((catchAllOnResolve env st id imp).2).missing = st.missing := by
  have h := resolveCached_missing env st id (some imp)
  unfold catchAllOnResolve
  split
  · rename_i resolved st1 heq
    rw [heq] at h
    split <;> exact h
  · rename_i st1 heq
    rw [heq] at h
    exact h

theorem onResolveTail_depImports (env : ScanEnv) (st : ScanState) (id imp : String) :
    ((onResolveTail env st id imp).2).depImports = st.depImports := by
  unfold onResolveTail
  split
  · rfl
  · split
    · rfl
    · split
      · rfl
      · exact catchAllOnResolve_depImports env st id imp

theorem onResolveTail_missing (env : ScanEnv) (st : ScanState) (id imp : String) :
    ((onResolveTail env st id imp).2).missing = st.missing := by
  unfold onResolveTail
  split
  · rfl
  · split
    · rfl
    · split
      · rfl
      · exact catchAllOnResolve_missing env st id imp

theorem bareImportOnResolve_depFind_ne (env : ScanEnv) (st : ScanState)
    (id imp k : String) (hk : k ≠ id) :
    assocFind ((bareImportOnResolve env st id imp).2).depImports k
      = assocFind st.depImports k := by
  have h := resolveCached_depImports env st id (some imp)
  unfold bareImportOnResolve
  split
  · rfl
  · split
    · rfl
    · split
      · rename_i resolved st1 heq
        rw [heq] at h
        split
        · exact congrArg (fun l => assocFind l k) h
        · split
          · split
            · exact (assocFind_assocSet_ne st1.depImports id k resolved hk).trans
                (congrArg (fun l => assocFind l k) h)
            · exact congrArg (fun l => assocFind l k) h
          · split
            · exact congrArg (fun l => assocFind l k) h
            · exact congrArg (fun l => assocFind l k) h
      · rename_i st1 heq
        rw [heq] at h
        exact congrArg (fun l => assocFind l k) h

theorem bareImportOnResolve_missingFind_ne (env : ScanEnv) (st : ScanState)
    (id imp k : String) (hk : k ≠ id) :
    assocFind ((bareImportOnResolve env st id imp).2).missing k
      = assocFind st.missing k := by
  have h := resolveCached_missing env st id (some imp)
  unfold bareImportOnResolve
  split
  · rfl
  · split
    · rfl
    · split
      · rename_i resolved st1 heq
        rw [heq] at h
        split
        · exact congrArg (fun l => assocFind l k) h
        · split
          · split
            · exact congrArg (fun l => assocFind l k) h
            · exact congrArg (fun l => assocFind l k) h
          · split
            · exact congrArg (fun l => assocFind l k) h
            · exact congrArg (fun l => assocFind l k) h
      · rename_i st1 heq
        rw [heq] at h
        exact (assocFind_assocSet_ne st1.missing id k (normalizePath imp) hk).trans
          (congrArg (fun l => assocFind l k) h)

theorem onResolveStep_depFind_ne (env : ScanEnv) (st : ScanState)
    (id imp k : String) (hk : k ≠ id) :
    assocFind ((onResolveStep env st id imp).2).depImports k
      = assocFind st.depImports k := by
  unfold onResolveStep
  split
  · rfl
  · split
    · rfl
    · split
      · rfl
      · split
        · rename_i r st1 heq
          have e1 : st1.depImports = st.depImports := by
            by_cases hh : htmlTypesRE id = true
            · rw [if_pos hh] at heq
              have := htmlTypesOnResolve_depImports env st id imp
              rw [heq] at this; exact this
            · rw [if_neg hh] at heq
              simp at heq
          exact congrArg (fun l => assocFind l k) e1
        · rename_i st1 heq
          have e1 : st1.depImports = st.depImports := by
            by_cases hh : htmlTypesRE id = true
            · rw [if_pos hh] at heq
              have := htmlTypesOnResolve_depImports env st id imp
              rw [heq] at this; exact this
            · rw [if_neg hh] at heq
              simp at heq
              rw [heq]
          split
          · rename_i r st2 heq2
            have e2 : assocFind st2.depImports k = assocFind st1.depImports k := by
              by_cases hb : bareFilter id = true
              · rw [if_pos hb] at heq2
                have := bareImportOnResolve_depFind_ne env st1 id imp k hk
                rw [heq2] at this; exact this
              · rw [if_neg hb] at heq2
                simp at heq2
            exact e2.trans (congrArg (fun l => assocFind l k) e1)
          · rename_i st2 heq2
            have e2 : assocFind st2.depImports k = assocFind st1.depImports k := by
              by_cases hb : bareFilter id = true
              · rw [if_pos hb] at heq2
                have := bareImportOnResolve_depFind_ne env st1 id imp k hk
                rw [heq2] at this; exact this
              · rw [if_neg hb] at heq2
                simp at heq2
                rw [heq2]
            exact (congrArg (fun l => assocFind l k)
                (onResolveTail_depImports env st2 id imp)).trans
              (e2.trans (congrArg (fun l => assocFind l k) e1))

theorem onResolveStep_missingFind_ne (env : ScanEnv) (st : ScanState)
    (id imp k : String) (hk : k ≠ id) :
    assocFind ((onResolveStep env st id imp).2).missing k
      = assocFind st.missing k := by
  unfold onResolveStep
  split
  · rfl
  · split
    · rfl
    · split
      · rfl
      · split
        · rename_i r st1 heq
          have e1 : st1.missing = st.missing := by
            by_cases hh : htmlTypesRE id = true
            · rw [if_pos hh] at heq
              have := htmlTypesOnResolve_missing env st id imp
              rw [heq] at this; exact this
            · rw [if_neg hh] at heq
              simp at heq
          exact congrArg (fun l => assocFind l k) e1
        · rename_i st1 heq
          have e1 : st1.missing = st.missing := by
            by_cases hh : htmlTypesRE id = true
            · rw [if_pos hh] at heq
              have := htmlTypesOnResolve_missing env st id imp
              rw [heq] at this; exact this
            · rw [if_neg hh] at heq
              simp at heq
              rw [heq]
          split
          · rename_i r st2 heq2
            have e2 : assocFind st2.missing k = assocFind st1.missing k := by
              by_cases hb : bareFilter id = true
              · rw [if_pos hb] at heq2
                have := bareImportOnResolve_missingFind_ne env st1 id imp k hk
                rw [heq2] at this; exact this
              · rw [if_neg hb] at heq2
                simp at heq2
            exact e2.trans (congrArg (fun l => assocFind l k) e1)
          · rename_i st2 heq2
            have e2 : assocFind st2.missing k = assocFind st1.missing k := by
              by_cases hb : bareFilter id = true
              · rw [if_pos hb] at heq2
                have := bareImportOnResolve_missingFind_ne env st1 id imp k hk
                rw [heq2] at this; exact this
              · rw [if_neg hb] at heq2
                simp at heq2
                rw [heq2]
            exact (congrArg (fun l => assocFind l k)
                (onResolveTail_missing env st2 id imp)).trans
              (e2.trans (congrArg (fun l => assocFind l k) e1))

theorem runResolves_depFind_none (env : ScanEnv) (k : String)
    (hstable : ∀ (st : ScanState) (imp : String), (onResolveStep env st k imp).2 = st) :
    ∀ (reqs : List (String × String)) (st : ScanState),
      assocFind st.depImports k = none →
      assocFind ((runResolves env st reqs)).depImports k = none := by
  intro reqs
  induction reqs with
  | nil => intro st h; simpa [runResolves] using h
  | cons r t ih =>
    intro st h
    simp only [runResolves, List.foldl_cons]
    apply ih
    by_cases hk : k = r.1
    · subst hk; rw [hstable st r.2]; exact h
    · rw [onResolveStep_depFind_ne env st r.1 r.2 k hk]; exact h

theorem runResolves_missingFind_none (env : ScanEnv) (k : String)
    (hstable : ∀ (st : ScanState) (imp : String), (onResolveStep env st k imp).2 = st) :
    ∀ (reqs : List (String × String)) (st : ScanState),
      assocFind st.missing k = none →
      assocFind ((runResolves env st reqs)).missing k = none := by
  intro reqs
  induction reqs with
  | nil => intro st h; simpa [runResolves] using h
  | cons r t ih =>
    intro st h
    simp only [runResolves, List.foldl_cons]
    apply ih
    by_cases hk : k = r.1
    · subst hk; rw [hstable st r.2]; exact h
    · rw [onResolveStep_missingFind_ne env st r.1 r.2 k hk]; exact h

theorem orderedDependencies_sorted (l : List (String × String)) :
    (orderedDependencies l).Sorted keyLE :=
  List.sorted_insertionSort keyLE l

theorem orderedDependencies_perm (l : List (String × String)) :
    List.Perm (orderedDependencies l) l :=
  List.perm_insertionSort keyLE l

theorem pairwise_and_of {α : Type} {R S : α → α → Prop} :
    ∀ {l : List α}, l.Pairwise R → l.Pairwise S →
      l.Pairwise (fun a b => R a b ∧ S a b) := by
  intro l
  induction l with
  | nil => intro _ _; exact List.Pairwise.nil
  | cons a t ih =>
    intro hR hS
    rcases List.pairwise_cons.mp hR with ⟨hRa, hRt⟩
    rcases List.pairwise_cons.mp hS with ⟨hSa, hSt⟩
    exact List.pairwise_cons.mpr ⟨fun b hb => ⟨hRa b hb, hSa b hb⟩, ih hRt hSt⟩

theorem orderedDependencies_eq_of_perm (l1 l2 : List (String × String))
    (hperm : l1.Perm l2) (hnd : (l1.map Prod.fst).Nodup) :
    orderedDependencies l1 = orderedDependencies l2 := by
  have symmNe : ∀ {x y : String × String}, x.1 ≠ y.1 → y.1 ≠ x.1 :=
    fun h => Ne.symm h
  have hne1 : l1.Pairwise (fun a b : String × String => a.1 ≠ b.1) := by
    rw [List.Nodup, List.pairwise_map] at hnd
    exact hnd
  have hne2 : l2.Pairwise (fun a b : String × String => a.1 ≠ b.1) :=
    (List.Perm.pairwise_iff symmNe hperm).1 hne1
  have hp1 := orderedDependencies_perm l1
  have hp2 := orderedDependencies_perm l2
  have hs1 := orderedDependencies_sorted l1
  have hs2 := orderedDependencies_sorted l2
  have hneS1 : (orderedDependencies l1).Pairwise (fun a b => a.1 ≠ b.1) :=
    (List.Perm.pairwise_iff symmNe hp1).2 hne1
  have hneS2 : (orderedDependencies l2).Pairwise (fun a b => a.1 ≠ b.1) :=
    (List.Perm.pairwise_iff symmNe hp2).2 hne2
  have hlt1 : (orderedDependencies l1).Sorted keyLT :=
    (pairwise_and_of hs1 hneS1).imp
      (fun h => lt_of_le_of_ne h.1 h.2)
  have hlt2 : (orderedDependencies l2).Sorted keyLT :=
    (pairwise_and_of hs2 hneS2).imp
      (fun h => lt_of_le_of_ne h.1 h.2)
  exact List.eq_of_perm_of_sorted (hp1.trans (hperm.trans hp2.symm)) hlt1 hlt2

theorem typeOk_of_module (b : ScriptBlock) (h : b.typeAttr = some "module") :
    typeOk b = true := by
  simp [typeOk, attrVal, h]

theorem processBlock_skip (gT eI : String → String) (p : String) (acc : HtmlAcc)
    (b : ScriptBlock) (h : typeOk b = false) :
    processBlock gT eI p acc b = acc := by
  simp [processBlock, h]

theorem foldl_processBlock_filter (gT eI : String → String) (p : String) :
    ∀ (l : List ScriptBlock) (acc : HtmlAcc),
      l.foldl (processBlock gT eI p) acc
        = (l.filter typeOk).foldl (processBlock gT eI p) acc := by
  intro l
  induction l with
  | nil => intro acc; rfl
  | cons b t ih =>
    intro acc
    by_cases hb : typeOk b = true
    · simp only [List.foldl_cons, List.filter_cons, hb, if_true]
      exact ih (processBlock gT eI p acc b)
    · have hb' : typeOk b = false := by
        cases hx : typeOk b
        · rfl
        · exact absurd hx hb
      simp only [List.foldl_cons, List.filter_cons, hb', Bool.false_eq_true, if_false]
      rw [processBlock_skip gT eI p acc b hb']
      exact ih acc

/-! ## Claim theorems -/

/-- Claim C1: for every completed scan the deps mapping returned by
`scanImports` is sorted lexicographically by specifier key, and any two
scans discovering the same set of (specifier, resolved-path) pairs return
an identical mapping in key order and values, regardless of the insertion
order during the crawl. -/
theorem claim1_deps_sorted_deterministic (l1 l2 : List (String × String))
    (hperm : l1.Perm l2) (hnd : (l1.map Prod.fst).Nodup) :
    (orderedDependencies l1).Sorted keyLE
      ∧ orderedDependencies l1 = orderedDependencies l2 :=
  ⟨orderedDependencies_sorted l1, orderedDependencies_eq_of_perm l1 l2 hperm hnd⟩

/-- Witness for C1 at two concrete insertion orders of the same pairs. -/
theorem claim1_witness :
    ([("vue", "/n/vue.js"), ("axios", "/n/axios.js")] : List (String × String)).Perm
        [("axios", "/n/axios.js"), ("vue", "/n/vue.js")]
      ∧ (([("vue", "/n/vue.js"), ("axios", "/n/axios.js")] : List (String × String)).map
          Prod.fst).Nodup
      ∧ ((orderedDependencies [("vue", "/n/vue.js"), ("axios", "/n/axios.js")]).Sorted keyLE
          ∧ orderedDependencies [("vue", "/n/vue.js"), ("axios", "/n/axios.js")]
              = orderedDependencies [("axios", "/n/axios.js"), ("vue", "/n/vue.js")]) :=
  ⟨by decide, by decide,
    claim1_deps_sorted_deterministic _ _ (by decide) (by decide)⟩

/-- Claim C2: when the discovered entry set is empty after filtering,
`scanImports` returns the empty result without launching any crawl, and
warns exactly when neither explicit entry patterns nor a forced-include
list were configured. -/
theorem claim2_empty_entries (fs : FsEnv)
    (crawl : List String → List (String × String) × List (String × String))
    (cfg : ScanConfig) (hempty : filteredEntries fs cfg = .ok []) :
    scanImports fs crawl cfg =
      .ok { deps := [], missing := [],
            warned := cfg.entriesPatterns.isNone && cfg.includeList.isNone,
            crawled := false }
    ∧ ((cfg.entriesPatterns.isNone && cfg.includeList.isNone) = true ↔
        (cfg.entriesPatterns = none ∧ cfg.includeList = none))
    ∧ ∀ crawl2, scanImports fs crawl cfg = scanImports fs crawl2 cfg := by
  refine ⟨?_, ?_, ?_⟩
  · simp [scanImports, hempty]
  · simp [Bool.and_eq_true, Option.isNone_iff_eq_none]
  · intro crawl2
    simp [scanImports, hempty]

/-- Witness for C2: a project with no configuration and no files. -/
theorem claim2_witness :
    filteredEntries emptyFs c2Cfg = .ok []
      ∧ scanImports emptyFs noCrawl c2Cfg =
          .ok { deps := [], missing := [],
                warned := c2Cfg.entriesPatterns.isNone && c2Cfg.includeList.isNone,
                crawled := false } :=
  ⟨rfl, (claim2_empty_entries emptyFs noCrawl c2Cfg rfl).1⟩

/-- Claim C3: a bare specifier whose resolution fails is recorded in
`missing` under the normalized importer path, does not appear in `deps`,
and the handler falls through without raising (the scan continues). -/
theorem claim3_missing_resolution (env : ScanEnv) (st : ScanState)
    (id importer : String)
    (hexc : moduleListContains (excludeList env) id = false)
    (hdep : assocFind st.depImports id = none)
    (hres : (resolveCached env st id (some importer)).1 = none) :
    bareImportOnResolve env st id importer =
      (none,
        { (resolveCached env st id (some importer)).2 with
          missing := assocSet ((resolveCached env st id (some importer)).2).missing id
            (normalizePath importer) })
    ∧ assocFind ((bareImportOnResolve env st id importer).2).missing id
        = some (normalizePath importer)
    ∧ ((bareImportOnResolve env st id importer).2).depImports = st.depImports
    ∧ assocFind ((bareImportOnResolve env st id importer).2).depImports id = none := by
  have hpair : resolveCached env st id (some importer)
      = (none, (resolveCached env st id (some importer)).2) := by
    rw [← hres]
  have h1 : bareImportOnResolve env st id importer =
      (none,
        { (resolveCached env st id (some importer)).2 with
          missing := assocSet ((resolveCached env st id (some importer)).2).missing id
            (normalizePath importer) }) := by
    unfold bareImportOnResolve
    rw [hexc, hdep, hpair]
    simp
  refine ⟨h1, ?_, ?_, ?_⟩
  · rw [h1]
    exact assocFind_assocSet_self _ _ _
  · rw [h1]
    exact resolveCached_depImports env st id (some importer)
  · rw [h1]
    rw [show ((none, { (resolveCached env st id (some importer)).2 with
        missing := assocSet ((resolveCached env st id (some importer)).2).missing id
          (normalizePath importer) }) :
        Option OnResolveResult × ScanState).2.depImports
        = ((resolveCached env st id (some importer)).2).depImports from rfl,
      resolveCached_depImports env st id (some importer), hdep]

/-- Witness for C3: `missing-pkg` fails to resolve from an importer. -/
theorem claim3_witness :
    (moduleListContains (excludeList witEnv) "missing-pkg" = false
      ∧ assocFind emptyState.depImports "missing-pkg" = none
      ∧ (resolveCached witEnv emptyState "missing-pkg" (some "/proj/src/app.js")).1 = none)
    ∧ assocFind
        ((bareImportOnResolve witEnv emptyState "missing-pkg" "/proj/src/app.js").2).missing
        "missing-pkg"
      = some (normalizePath "/proj/src/app.js") :=
  ⟨⟨by decide, by decide, by decide⟩,
    (claim3_missing_resolution witEnv emptyState "missing-pkg" "/proj/src/app.js"
      (by decide) (by decide) (by decide)).2.1⟩

/-- Claim C4: a bare specifier resolving to an absolute, non-virtual path
under `node_modules` (or one in the forced-include list) is externalized in
every such case — whether or not the resolved target is optimizable, so the
crawl never descends into the package — and when the target is of an
optimizable kind, `deps` additionally maps the original specifier to the
absolute resolved path. -/
theorem claim4_dep_recorded_externalized (env : ScanEnv) (st : ScanState)
    (id importer r : String)
    (hexc : moduleListContains (excludeList env) id = false)
    (hdep : assocFind st.depImports id = none)
    (hres : (resolveCached env st id (some importer)).1 = some r)
    (habs : isAbsolute r = true)
    (hvirt : r ≠ id)
    (hnull : containsNullByte r = false)
    (hnm : containsSub r "node_modules" = true ∨ includeContains env id = true)
    (hentry : env.entries.contains id = false) :
    bareImportOnResolve env st id importer =
      (some { path := id, external := true, ns := none },
        if env.isOptimizable r then
          { (resolveCached env st id (some importer)).2 with
            depImports := assocSet ((resolveCached env st id (some importer)).2).depImports
              id r }
        else (resolveCached env st id (some importer)).2)
    ∧ (env.isOptimizable r = true →
        assocFind ((bareImportOnResolve env st id importer).2).depImports id = some r)
    ∧ (env.isOptimizable r = false →
        ((bareImportOnResolve env st id importer).2).depImports = st.depImports) := by
  have hpair : resolveCached env st id (some importer)
      = (some r, (resolveCached env st id (some importer)).2) := by
    rw [← hres]
  have hsed : shouldExternalizeDep r id = false := by
    have hbeq : (r == id) = false := by
      cases hx : r == id
      · rfl
      · exact absurd (eq_of_beq hx) hvirt
    simp [shouldExternalizeDep, habs, hbeq, hnull]
  have hcond : (containsSub r "node_modules" || includeContains env id) = true := by
    rcases hnm with h | h <;> simp [h]
  have h1 : bareImportOnResolve env st id importer =
      (some { path := id, external := true, ns := none },
        if env.isOptimizable r then
          { (resolveCached env st id (some importer)).2 with
            depImports := assocSet ((resolveCached env st id (some importer)).2).depImports
              id r }
        else (resolveCached env st id (some importer)).2) := by
    have hmem : id ∉ env.entries := by simpa using hentry
    unfold bareImportOnResolve
    rw [hexc, hdep, hpair]
    simp [hsed, hcond, externalUnlessEntry, hentry, hmem]
  refine ⟨h1, ?_, ?_⟩
  · intro hopt
    rw [h1, if_pos hopt]
    exact assocFind_assocSet_self _ _ _
  · intro hnopt
    rw [h1, if_neg (by simp [hnopt])]
    exact resolveCached_depImports env st id (some importer)

/-- Witness for C4: `react` resolves into `node_modules` and is recorded. -/
theorem claim4_witness :
    ((resolveCached witEnv emptyState "react" (some "/proj/src/app.js")).1
        = some "/proj/node_modules/react/index.js"
      ∧ containsSub "/proj/node_modules/react/index.js" "node_modules" = true
      ∧ witEnv.isOptimizable "/proj/node_modules/react/index.js" = true)
    ∧ assocFind ((bareImportOnResolve witEnv emptyState "react" "/proj/src/app.js").2).depImports
        "react"
      = some "/proj/node_modules/react/index.js" :=
  ⟨⟨by decide, by decide, by decide⟩,
    (claim4_dep_recorded_externalized witEnv emptyState "react" "/proj/src/app.js"
      "/proj/node_modules/react/index.js"
      (by decide) (by decide) (by decide) (by decide) (by decide) (by decide)
      (Or.inl (by decide)) (by decide)).2.1 (by decide)⟩

/-- Claim C9: a truthy `rollupOptions.input` of unsupported shape (neither
string, array nor object) makes `scanImports` throw immediately, before
any crawl is launched. -/
theorem claim9_invalid_build_input (fs : FsEnv)
    (crawl : List String → List (String × String) × List (String × String))
    (cfg : ScanConfig)
    (hpat : cfg.entriesPatterns = none)
    (hbi : cfg.buildInput = some (.other true)) :
    scanImports fs crawl cfg = .error "invalid rollupOptions.input value."
    ∧ ∀ crawl2, scanImports fs crawl cfg = scanImports fs crawl2 cfg := by
  have hd : discoverEntries fs cfg = .error "invalid rollupOptions.input value." := by
    simp [discoverEntries, hpat, hbi, buildInputTruthy]
  have hf : filteredEntries fs cfg = .error "invalid rollupOptions.input value." := by
    simp [filteredEntries, hd, Except.map]
  exact ⟨by simp [scanImports, hf], fun crawl2 => by simp [scanImports, hf]⟩

/-- Witness for C9: a numeric-style build input aborts the scan. -/
theorem claim9_witness :
    c9Cfg.entriesPatterns = none
      ∧ c9Cfg.buildInput = some (.other true)
      ∧ scanImports emptyFs noCrawl c9Cfg = .error "invalid rollupOptions.input value." :=
  ⟨rfl, rfl, (claim9_invalid_build_input emptyFs noCrawl c9Cfg rfl rfl).1⟩


theorem htmlOnLoad_html (gT eI : String → String) (p : String)
    (blocks : List ScriptBlock) (hp : strEnds p ".html" = true) :
    htmlOnLoad gT eI p blocks
      = htmlOnLoad gT eI p (blocks.filter (fun b => b.typeAttr == some "module")) := by
  have hidem : (blocks.filter (fun b => b.typeAttr == some "module")).filter
      (fun b => b.typeAttr == some "module")
      = blocks.filter (fun b => b.typeAttr == some "module") :=
    List.filter_eq_self.mpr (fun b hb => (List.mem_filter.mp hb).2)
  simp only [htmlOnLoad, hp, if_true]
  rw [hidem]

theorem htmlOnLoad_nonhtml (gT eI : String → String) (p : String)
    (blocks : List ScriptBlock) (hp : strEnds p ".html" = false) :
    htmlOnLoad gT eI p blocks = htmlOnLoad gT eI p (blocks.filter typeOk) := by
  simp only [htmlOnLoad, hp, Bool.false_eq_true, if_false]
  rw [foldl_processBlock_filter]

/-- Counterexample to claim C5 as stated: in a true `.html` file, a
`<script>` block with an absent `type` attribute (which the claim says is
extracted) is not matched by `scriptModuleRE` and therefore not extracted:
the load hook produces no virtual script for it. -/
theorem claim5_counterexample :
    processedBlocks "/a/index.html" c5Blocks ≠ c5Blocks.filter typeOk
    ∧ c5Blocks.filter typeOk = c5Blocks
    ∧ (htmlOnLoad id id "/a/index.html" c5Blocks).2 = [] := by
  refine ⟨?_, ?_, ?_⟩ <;> decide

/-- Claim C5 (amended): the load hook processes exactly the blocks of
`processedBlocks`; for a `.html` file those are the blocks carrying an
explicit quoted `type="module"` attribute (blocks with absent or other
JavaScript-indicating types are not extracted), while for the non-HTML
markup dialects every script block passing the non-JS-type skip is
processed. -/
theorem claim5_amended_extraction (gT eI : String → String) (p : String)
    (blocks : List ScriptBlock) :
    htmlOnLoad gT eI p blocks = htmlOnLoad gT eI p (processedBlocks p blocks)
    ∧ (strEnds p ".html" = true →
        processedBlocks p blocks = blocks.filter (fun b => b.typeAttr == some "module"))
    ∧ (strEnds p ".html" = false →
        processedBlocks p blocks = blocks.filter typeOk) := by
  have hmod : ∀ (hp : strEnds p ".html" = true),
      processedBlocks p blocks = blocks.filter (fun b => b.typeAttr == some "module") := by
    intro hp
    simp only [processedBlocks, hp, if_true]
    exact List.filter_eq_self.mpr
      (fun b hb => typeOk_of_module b (by
        have := (List.mem_filter.mp hb).2
        simpa using this))
  have hnon : ∀ (hp : strEnds p ".html" = false),
      processedBlocks p blocks = blocks.filter typeOk := by
    intro hp
    simp only [processedBlocks, hp, Bool.false_eq_true, if_false]
  refine ⟨?_, hmod, hnon⟩
  cases hp : strEnds p ".html" with
  | true =>
    exact (htmlOnLoad_html gT eI p blocks hp).trans
      (congrArg (fun l => htmlOnLoad gT eI p l) (hmod hp).symm)
  | false =>
    exact (htmlOnLoad_nonhtml gT eI p blocks hp).trans
      (congrArg (fun l => htmlOnLoad gT eI p l) (hnon hp).symm)

/-- Witness for the amended C5 at the concrete inputs of the
counterexample. -/
theorem claim5_amended_witness :
    strEnds "/a/index.html" ".html" = true
    ∧ processedBlocks "/a/index.html" c5Blocks
        = c5Blocks.filter (fun b => b.typeAttr == some "module") :=
  ⟨by decide,
    (claim5_amended_extraction id id "/a/index.html" c5Blocks).2.1 (by decide)⟩

/-- Claim C6: an HTML entry with a `type="module"` script referencing
`/src/main.ts` and an inline `type="module"` script `console.log(1)`
synthesizes exactly two import edges — a direct import of `/src/main.ts`
(no virtual module) and a star re-export of one registered virtual module
whose stored contents are the inline text — plus the synthetic default
export. -/
theorem claim6_html_entry_edges (gT eI : String → String) :
    htmlOnLoad gT eI "/proj/index.html" c6Blocks =
      ("import \"/src/main.ts\"\nexport * from \"virtual-module:/proj/index.html?id=0\"\n\nexport default \x7b\x7d",
        [("/proj/index.html?id=0",
          { loader := "js", contents := "console.log(1)", htmlTypeLoader := "js" })]) := by
  simp [htmlOnLoad, c6Blocks, List.filter, List.foldl, processBlock, typeOk, attrVal,
    blockLoader, strBlank, jsonQuote, strEnds, strStarts, leadMatch, containsSub, hasSub,
    virtualModuleMark, assocSet]
  exact ⟨rfl, rfl⟩

/-- Claim C7: a remote-URL specifier is immediately marked external with
no state mutation (so its target is never loaded), and it never shows up
as a key of `deps` or `missing` during a whole crawl. -/
theorem claim7_remote_urls (env : ScanEnv) (st : ScanState) (url imp : String)
    (reqs : List (String × String))
    (hurl : externalRE url = true)
    (hd : assocFind st.depImports url = none)
    (hm : assocFind st.missing url = none) :
    onResolveStep env st url imp
      = (some { path := url, external := true, ns := none }, st)
    ∧ assocFind ((runResolves env st reqs)).depImports url = none
    ∧ assocFind ((runResolves env st reqs)).missing url = none := by
  have hstep : ∀ (st' : ScanState) (imp' : String),
      onResolveStep env st' url imp'
        = (some { path := url, external := true, ns := none }, st') := by
    intro st' imp'
    unfold onResolveStep
    rw [hurl]
    simp
  exact ⟨hstep st imp,
    runResolves_depFind_none env url (fun st' imp' => by rw [hstep st' imp']) reqs st hd,
    runResolves_missingFind_none env url (fun st' imp' => by rw [hstep st' imp']) reqs st hm⟩

/-- Witness for C7: a CDN URL stays external and out of both maps over a
crawl that also records a real dependency. -/
theorem claim7_witness :
    externalRE "https://cdn.example.com/x.js" = true
    ∧ onResolveStep witEnv emptyState "https://cdn.example.com/x.js" "/proj/index.html"
        = (some { path := "https://cdn.example.com/x.js", external := true, ns := none },
            emptyState)
    ∧ assocFind ((runResolves witEnv emptyState
          [("https://cdn.example.com/x.js", "/proj/index.html"),
            ("react", "/proj/src/app.js")])).depImports
        "https://cdn.example.com/x.js" = none :=
  ⟨by decide,
    (claim7_remote_urls witEnv emptyState "https://cdn.example.com/x.js" "/proj/index.html"
      [("https://cdn.example.com/x.js", "/proj/index.html"), ("react", "/proj/src/app.js")]
      (by decide) (by decide) (by decide)).1,
    (claim7_remote_urls witEnv emptyState "https://cdn.example.com/x.js" "/proj/index.html"
      [("https://cdn.example.com/x.js", "/proj/index.html"), ("react", "/proj/src/app.js")]
      (by decide) (by decide) (by decide)).2.1⟩

/-- Counterexample to claim C8 as stated: the `seen` cache stores the
result only after the `await`, so two same-key calls whose resolver
invocations overlap (check A, check B, finish A, finish B) both miss the
cache and the underlying resolver is invoked twice, not once. -/
theorem claim8_counterexample :
    (runTwoCalls c8Oracle ("react", some "/proj/src/App.jsx")
        ("react", some "/proj/src/App.jsx") [true, false, true, false]
        { seen := [], resolverCalls := 0 }).2.2.resolverCalls = 2
    ∧ ¬((runTwoCalls c8Oracle ("react", some "/proj/src/App.jsx")
        ("react", some "/proj/src/App.jsx") [true, false, true, false]
        { seen := [], resolverCalls := 0 }).2.2.resolverCalls ≤ 1) := by
  refine ⟨?_, ?_⟩ <;> decide

/-- Claim C8 (amended): the cache deduplicates only completed
resolutions — a same-key call whose cache check happens after an earlier
call has stored its result returns that result without invoking the
resolver again, whereas overlapping same-key calls each invoke the
resolver (there is no shared in-flight result). -/
theorem claim8_amended_sequential (oracle : String → Option String → Option String)
    (id : String) (imp : Option String) (st : CResolveState)
    (h : assocFind st.seen (resolveKey id imp) = none) :
    (runTwoCalls oracle (id, imp) (id, imp) [true, true, false] st).2.2.resolverCalls
        = st.resolverCalls + 1
    ∧ (runTwoCalls oracle (id, imp) (id, imp) [true, true, false] st).2.1
        = CallPhase.returned (oracle id (normImporter imp))
    ∧ (runTwoCalls oracle (id, imp) (id, imp) [true, true, false] st).1
        = CallPhase.returned (oracle id (normImporter imp)) := by
  simp [runTwoCalls, callStep, callCheck, callFinish, h, assocFind_assocSet_self]

/-- Witness for the amended C8: a second sequential call hits the cache. -/
theorem claim8_amended_witness :
    assocFind (CResolveState.mk [] 0).seen
        (resolveKey "react" (some "/proj/src/App.jsx")) = none
    ∧ (runTwoCalls c8Oracle ("react", some "/proj/src/App.jsx")
        ("react", some "/proj/src/App.jsx") [true, true, false]
        { seen := [], resolverCalls := 0 }).2.2.resolverCalls
      = (CResolveState.mk [] 0).resolverCalls + 1 :=
  ⟨rfl,
    (claim8_amended_sequential c8Oracle "react" (some "/proj/src/App.jsx")
      { seen := [], resolverCalls := 0 } rfl).1⟩

theorem moduleListContains_append (l1 l2 : List String) (id : String) :
    moduleListContains (l1 ++ l2) id
      = (moduleListContains l1 id || moduleListContains l2 id) := by
  simp [moduleListContains, List.any_append]

theorem onResolveStep_excluded (env : ScanEnv) (st : ScanState) (id imp : String)
    (hmlc : moduleListContains (excludeList env) id = true)
    (he : externalRE id = false) (hdata : dataUrlRE id = false)
    (hvm : virtualModuleRE id = false) (hhtml : htmlTypesRE id = false)
    (hbf : bareFilter id = true) :
    onResolveStep env st id imp = (some (externalUnlessEntry env id), st) := by
  have hbare : bareImportOnResolve env st id imp
      = (some (externalUnlessEntry env id), st) := by
    unfold bareImportOnResolve
    rw [hmlc]
    simp
  unfold onResolveStep
  rw [he, hdata, hvm, hhtml, hbf]
  simp [hbare]

/-- Claim C10: the effective exclude list is the configured
`optimizeDeps.exclude` augmented with `@vite/client` and `@vite/env`, so a
bare import of either is externalized (unless it is itself an entry) with
no state change, and it never appears as a key of `deps` in a whole
crawl. -/
theorem claim10_builtin_excludes (env : ScanEnv) (st : ScanState) (imp : String)
    (reqs : List (String × String)) (id0 : String)
    (hid : id0 = "@vite/client" ∨ id0 = "@vite/env")
    (hd : assocFind st.depImports id0 = none) :
    excludeList env = env.excludeCfg ++ ["@vite/client", "@vite/env"]
    ∧ onResolveStep env st id0 imp = (some (externalUnlessEntry env id0), st)
    ∧ (externalUnlessEntry env id0).external = !(env.entries.contains id0)
    ∧ assocFind ((runResolves env st reqs)).depImports id0 = none := by
  have hstep : ∀ (st' : ScanState) (imp' : String),
      onResolveStep env st' id0 imp' = (some (externalUnlessEntry env id0), st') := by
    intro st' imp'
    rcases hid with h | h <;> subst h
    · refine onResolveStep_excluded env st' _ imp' ?_ rfl rfl rfl rfl rfl
      rw [excludeList, moduleListContains_append,
        show moduleListContains ["@vite/client", "@vite/env"] "@vite/client" = true from rfl]
      simp
    · refine onResolveStep_excluded env st' _ imp' ?_ rfl rfl rfl rfl rfl
      rw [excludeList, moduleListContains_append,
        show moduleListContains ["@vite/client", "@vite/env"] "@vite/env" = true from rfl]
      simp
  refine ⟨rfl, hstep st imp, rfl, ?_⟩
  exact runResolves_depFind_none env id0 (fun st' imp' => by rw [hstep st' imp'])
    reqs st hd

/-- Witness for C10: `@vite/client` is externalized and absent from deps
after a crawl that also records `react`. -/
theorem claim10_witness :
    assocFind emptyState.depImports "@vite/client" = none
    ∧ onResolveStep witEnv emptyState "@vite/client" "/proj/src/app.js"
        = (some (externalUnlessEntry witEnv "@vite/client"), emptyState)
    ∧ assocFind ((runResolves witEnv emptyState
          [("@vite/client", "/proj/src/app.js"), ("react", "/proj/src/app.js")])).depImports
        "@vite/client" = none :=
  ⟨by decide,
    (claim10_builtin_excludes witEnv emptyState "/proj/src/app.js"
      [("@vite/client", "/proj/src/app.js"), ("react", "/proj/src/app.js")]
      "@vite/client" (Or.inl rfl) (by decide)).2.1,
    (claim10_builtin_excludes witEnv emptyState "/proj/src/app.js"
      [("@vite/client", "/proj/src/app.js"), ("react", "/proj/src/app.js")]
      "@vite/client" (Or.inl rfl) (by decide)).2.2.2⟩


end ViteScan
